import Mathlib

/-!
# SpaceScrypt presence-verification protocol: shallow embedding

This file embeds the core of the SpaceScrypt repository in Lean 4:

* `api/src/crypto.ts` — hex codec, canonical message builder, timestamp
  encoder (`hexToBytes`, `bytesToHex`, `u64StringTo8BE`, `buildMessage`);
* `api/src/registry.ts` — beacon registry (`loadBeaconRegistry`,
  `getPublicKeyHex`);
* `api/src/index.ts` — the `POST /api/verify` endpoint handler;
* the frontend challenge/response session (`disconnectBeacon`, `onNotify`).

Bytes are modelled as `Nat` values below 256 (`Uint8Array` cells), byte
strings as `List Nat`, JS strings as Lean `String`.  JS exceptions are
modelled with `Except String`.  The external Ed25519 primitive
(`nacl.sign.detached.verify`) is an abstract boolean-valued parameter.
-/

set_option maxRecDepth 100000

namespace SpaceScrypt

/-! ## Characters, digits and hex digits -/

/-- Code points of the JS whitespace characters relevant to `BigInt(string)`
trimming (space, tab, LF, VT, FF, CR). -/
def isJsWhitespace (c : Char) : Bool :=
  c.toNat = 32 || c.toNat = 9 || c.toNat = 10 || c.toNat = 11 ||
  c.toNat = 12 || c.toNat = 13

/-- Decimal digit `0`-`9`. -/
def isDigitChar (c : Char) : Bool :=
  48 ≤ c.toNat && c.toNat ≤ 57

/-- Value of a decimal digit, `none` on any other character. -/
def digitVal? (c : Char) : Option Nat :=
  if 48 ≤ c.toNat ∧ c.toNat ≤ 57 then some (c.toNat - 48) else none

/-- Value of a hex digit, case-insensitive (`0-9`, `a-f`, `A-F`),
`none` on any other character. -/
def hexDigitVal? (c : Char) : Option Nat :=
  if 48 ≤ c.toNat ∧ c.toNat ≤ 57 then some (c.toNat - 48)
  else if 97 ≤ c.toNat ∧ c.toNat ≤ 102 then some (c.toNat - 87)
  else if 65 ≤ c.toNat ∧ c.toNat ≤ 70 then some (c.toNat - 55)
  else none

/-- Octal digit value (`0`-`7`). -/
def octDigitVal? (c : Char) : Option Nat :=
  if 48 ≤ c.toNat ∧ c.toNat ≤ 55 then some (c.toNat - 48) else none

/-- Binary digit value (`0`-`1`). -/
def binDigitVal? (c : Char) : Option Nat :=
  if 48 ≤ c.toNat ∧ c.toNat ≤ 49 then some (c.toNat - 48) else none

/-- Case-insensitive hex digit, the character class `[0-9a-fA-F]`. -/
def isHexChar (c : Char) : Bool :=
  (hexDigitVal? c).isSome

/-- Lowercase hex digit, the character class `[0-9a-f]`. -/
def isLowerHexChar (c : Char) : Bool :=
  (48 ≤ c.toNat && c.toNat ≤ 57) || (97 ≤ c.toNat && c.toNat ≤ 102)

/-- Lowercase hex digit character for a value below 16 (the digits produced
by JS `Number.prototype.toString(16)`). -/
def toHexDigit : Nat → Char
  | 0 => '0' | 1 => '1' | 2 => '2' | 3 => '3'
  | 4 => '4' | 5 => '5' | 6 => '6' | 7 => '7'
  | 8 => '8' | 9 => '9' | 10 => 'a' | 11 => 'b'
  | 12 => 'c' | 13 => 'd' | 14 => 'e' | _ => 'f'

/-- Model of JS `String.prototype.toLowerCase` on one character: ASCII
uppercase letters are shifted down by 32; every other character is kept.
(Non-ASCII case mappings do not occur in the protocol's hex/id strings.) -/
def jsToLower (c : Char) : Char :=
  if 65 ≤ c.toNat ∧ c.toNat ≤ 90 then Char.ofNat (c.toNat + 32) else c

/-- Model of JS `toLowerCase` on a whole string. -/
def strToLower (s : String) : String :=
  ⟨s.data.map jsToLower⟩

/-! ## Hex codec (`api/src/crypto.ts`: `hexToBytes`, `bytesToHex`) -/

/-- Parse an (already validated, lowercased) character list two hex digits at
a time, as the loop `out[i] = parseInt(hex.slice(i*2, i*2+2), 16)` does. -/
def hexPairs : List Char → List Nat
  | c1 :: c2 :: rest =>
    (16 * (hexDigitVal? c1).getD 0 + (hexDigitVal? c2).getD 0) :: hexPairs rest
  | _ => []

/-- `hexToBytes` from `api/src/crypto.ts`: lowercase the input, reject unless
it matches `/^[0-9a-f]*$/` with even length, then parse byte pairs.  A thrown
`Error("invalid hex")` is modelled as `Except.error`. -/
def hexToBytes (h : String) : Except String (List Nat) :=
  let hex := strToLower h
  if hex.data.all isLowerHexChar && hex.length % 2 == 0 then
    Except.ok (hexPairs hex.data)
  else
    Except.error ("invalid hex")

/-- Two lowercase hex characters for one byte value below 256, as
`x.toString(16).padStart(2, "0")` produces. -/
def byteToHex (x : Nat) : List Char :=
  [toHexDigit (x / 16), toHexDigit (x % 16)]

/-- `bytesToHex` from `api/src/crypto.ts`:
`Array.from(b).map(x => x.toString(16).padStart(2, "0")).join("")`. -/
def bytesToHex (b : List Nat) : String :=
  ⟨(b.map byteToHex).flatten⟩

/-! ## JS `BigInt(string)` model -/

/-- Accumulating digit parser in a given base: fails at the first character
that is not a digit of the base. -/
def radixDigitsAcc (dv : Char → Option Nat) (base : Nat) :
    Nat → List Char → Option Nat
  | acc, [] => some acc
  | acc, c :: cs =>
    match dv c with
    | some d => radixDigitsAcc dv base (acc * base + d) cs
    | none => none

/-- Numeric value denoted by a list of decimal digits. -/
def digitsToNat (l : List Char) : Nat :=
  l.foldl (fun a c => a * 10 + (c.toNat - 48)) 0

/-- Strip JS whitespace from both ends of a character list. -/
def trimJs (l : List Char) : List Char :=
  ((l.dropWhile isJsWhitespace).reverse.dropWhile isJsWhitespace).reverse

/-- `StringToBigInt` on a whitespace-trimmed character list: the empty string
denotes `0`; a sign prefix admits only decimal digits; `0x`/`0o`/`0b`
prefixes admit the respective digit sets; anything else must be a plain
decimal digit string.  `none` models a thrown `SyntaxError`. -/
def jsBigIntCore (l : List Char) : Option Int :=
  match l with
  | [] => some 0
  | c :: rest =>
    if c = '+' then
      if rest.isEmpty then none
      else (radixDigitsAcc digitVal? 10 0 rest).map Int.ofNat
    else if c = '-' then
      if rest.isEmpty then none
      else (radixDigitsAcc digitVal? 10 0 rest).map (fun v => -(Int.ofNat v))
    else if c = '0' then
      match rest with
      | [] => some 0
      | c2 :: rest2 =>
        if c2 = 'x' ∨ c2 = 'X' then
          if rest2.isEmpty then none
          else (radixDigitsAcc hexDigitVal? 16 0 rest2).map Int.ofNat
        else if c2 = 'o' ∨ c2 = 'O' then
          if rest2.isEmpty then none
          else (radixDigitsAcc octDigitVal? 8 0 rest2).map Int.ofNat
        else if c2 = 'b' ∨ c2 = 'B' then
          if rest2.isEmpty then none
          else (radixDigitsAcc binDigitVal? 2 0 rest2).map Int.ofNat
        else (radixDigitsAcc digitVal? 10 0 l).map Int.ofNat
    else (radixDigitsAcc digitVal? 10 0 l).map Int.ofNat

/-- Model of the JS builtin `BigInt(string)`. -/
def jsBigInt (s : String) : Option Int :=
  jsBigIntCore (trimJs s.data)

/-! ## Timestamp encoding and canonical message (`api/src/crypto.ts`) -/

/-- `u64StringTo8BE` from `api/src/crypto.ts`: `const n = BigInt(msStr)`
followed by `out[i] = Number((n >> BigInt((7 - i) * 8)) & 0xffn)` for
`i = 7..0`.  On a `BigInt`, `>>` is an arithmetic (floor) shift and
`& 0xffn` takes the low 8 bits of the two's complement, i.e. the
nonnegative residue mod 256 — exactly `Int`'s `/` and `%` here. -/
def u64StringTo8BE (msStr : String) : Except String (List Nat) :=
  match jsBigInt msStr with
  | none => Except.error ("SyntaxError: cannot convert string to a BigInt")
  | some n =>
    Except.ok ((List.range 8).map fun i =>
      ((n / (2 : Int) ^ ((7 - i) * 8)) % 256).toNat)

/-- The 8-byte big-endian encoding of a natural number (most significant
byte first). -/
def be64 (n : Nat) : List Nat :=
  (List.range 8).map fun i => n / 2 ^ ((7 - i) * 8) % 256

/-- `buildMessage` from `api/src/crypto.ts`: decode the nonce hex, require
exactly 16 bytes, encode the timestamp, concatenate `nonce || ts_be64`. -/
def buildMessage (nonceHex : String) (tsMs : String) : Except String (List Nat) :=
  match hexToBytes nonceHex with
  | Except.error e => Except.error e
  | Except.ok nonce =>
    if nonce.length ≠ 16 then Except.error ("nonce must be exactly 16 bytes")
    else
      match u64StringTo8BE tsMs with
      | Except.error e => Except.error e
      | Except.ok ts => Except.ok (nonce ++ ts)

/-! ## Beacon registry (`api/src/registry.ts`) -/

/-- Insertion-ordered string map modelling the JS `Map<string, string>`:
`set` overwrites an existing key in place, otherwise appends. -/
def mapSet (m : List (String × String)) (k v : String) : List (String × String) :=
  if m.any (fun p => p.1 = k) then
    m.map (fun p => if p.1 = k then (k, v) else p)
  else m ++ [(k, v)]

/-- `Map.get`: the value stored at a key, if any. -/
def mapGet (m : List (String × String)) (k : String) : Option String :=
  (m.find? (fun p => p.1 = k)).map (fun p => p.2)

/-- The `/^[0-9a-f]{16}$/i` test applied to a beacon id. -/
def validBeaconIdHex (s : String) : Bool :=
  s.length == 16 && s.data.all isHexChar

/-- The `/^[0-9a-f]{64}$/i` test applied to a public key. -/
def validPublicKeyHex (s : String) : Bool :=
  s.length == 64 && s.data.all isHexChar

/-- A registry entry passing both format checks of `loadBeaconRegistry`. -/
def validEntry (e : String × String) : Bool :=
  validBeaconIdHex e.1 && validPublicKeyHex e.2

/-- The configuration source of `loadBeaconRegistry`: the file
`config/beacons.json` is either absent or a list of
`beaconIdHex -> publicKeyHex` entries. -/
inductive RegistrySource where
  | absent : RegistrySource
  | present : List (String × String) → RegistrySource

/-- The entry loop of `loadBeaconRegistry`: validate each entry in order,
lowercase and insert it into `REG`, and throw (returning the registry as
mutated so far together with the error message) at the first bad entry. -/
def loadEntries : List (String × String) → List (String × String) →
    List (String × String) × Option String
  | [], reg => (reg, none)
  | (beaconIdHex, publicKeyHex) :: rest, reg =>
    if ¬ validBeaconIdHex beaconIdHex then
      (reg, some ("Bad beaconIdHex: " ++ beaconIdHex ++ " (expect 16 hex chars)"))
    else if ¬ validPublicKeyHex publicKeyHex then
      (reg, some ("Bad publicKeyHex for " ++ beaconIdHex ++ " (expect 64 hex chars)"))
    else
      loadEntries rest (mapSet reg (strToLower beaconIdHex) (strToLower publicKeyHex))

/-- `loadBeaconRegistry` from `api/src/registry.ts`, as a transition on the
module-level `REG` map: it first runs `REG.clear()`, returns the (now
empty) registry when the file is absent, and otherwise inserts the entries
one at a time, throwing at the first malformed one.  The result pairs the
final visible registry with the error, if any. -/
def loadBeaconRegistry (initial : List (String × String)) (src : RegistrySource) :
    List (String × String) × Option String :=
  match initial, src with
  | _, RegistrySource.absent => ([], none)
  | _, RegistrySource.present entries => loadEntries entries []

/-- `getPublicKeyHex` from `api/src/registry.ts`:
`REG.get(beaconIdHex.toLowerCase())`. -/
def getPublicKeyHex (reg : List (String × String)) (beaconIdHex : String) :
    Option String :=
  mapGet reg (strToLower beaconIdHex)

/-! ## The `POST /api/verify` endpoint (`api/src/index.ts`) -/

/-- The JSON body of a verification request. -/
structure VerifyRequest where
  beaconIdHex : String
  nonceHex : String
  tsMs : String
  sigHex : String

/-- The input validation applied to the body — the route's JSON schema
(compiled with ajv) and the handler's zod parser enforce the same patterns:
`beaconIdHex : ^[0-9a-fA-F]{16}$`, `nonceHex : ^[0-9a-fA-F]{32}$`,
`tsMs : ^[0-9]+$`, `sigHex : ^[0-9a-fA-F]{128}$`. -/
def validBody (r : VerifyRequest) : Bool :=
  r.beaconIdHex.length == 16 && r.beaconIdHex.data.all isHexChar &&
  r.nonceHex.length == 32 && r.nonceHex.data.all isHexChar &&
  r.tsMs.length ≥ 1 && r.tsMs.data.all isDigitChar &&
  r.sigHex.length == 128 && r.sigHex.data.all isHexChar

/-- The observable response of the verification endpoint:
* `validationError` — the body failed schema validation (HTTP 400, framework
  error body without an `ok` field);
* `rejected e` — `res.code(400).send({ ok: false, error: e })`;
* `verdict ok` — `res.send({ ok })` with HTTP 200;
* `serverError e` — an exception escaped the handler (HTTP 500). -/
inductive VerifyResponse where
  | validationError : VerifyResponse
  | rejected : String → VerifyResponse
  | verdict : Bool → VerifyResponse
  | serverError : String → VerifyResponse
deriving DecidableEq

/-- Whether a response is a rejection (anything but `verdict true`). -/
def isRejection : VerifyResponse → Bool
  | VerifyResponse.verdict ok => !ok
  | _ => true

/-- Whether a response body carries a machine-readable reason code next to
the `ok` boolean: only the `{ ok: false, error }` shape does. -/
def carriesReasonCode : VerifyResponse → Bool
  | VerifyResponse.rejected _ => true
  | _ => false

/-- The handler of `app.post("/api/verify")` in `api/src/index.ts`,
parameterized by the external Ed25519 primitive `ed` standing for
`nacl.sign.detached.verify(msg, sig, pub)`: validate the body, look the
beacon up, build the canonical message, decode signature and key, and
answer `{ ok: valid }`. -/
def verifyHandler (ed : List Nat → List Nat → List Nat → Bool)
    (reg : List (String × String)) (r : VerifyRequest) : VerifyResponse :=
  if ¬ validBody r then VerifyResponse.validationError
  else
    match getPublicKeyHex reg r.beaconIdHex with
    | none => VerifyResponse.rejected ("unknown_beacon")
    | some pubHex =>
      match buildMessage r.nonceHex r.tsMs with
      | Except.error e => VerifyResponse.serverError e
      | Except.ok msg =>
        match hexToBytes r.sigHex with
        | Except.error e => VerifyResponse.serverError e
        | Except.ok sig =>
          match hexToBytes pubHex with
          | Except.error e => VerifyResponse.serverError e
          | Except.ok pub => VerifyResponse.verdict (ed msg sig pub)

/-! ## Challenge/response session (frontend component) -/

/-- The component state of the frontend session: the React `useState`
values, the `conn`/`notifyAttached` refs (the GATT connection is abstracted
to its presence), and the `nonceRef` slot that `onNotify` reads. -/
structure SessionState where
  conn : Bool
  notifyAttached : Bool
  deviceName : String
  beaconIdHex : String
  nonceHex : String
  tsMs : String
  sigHex : String
  verified : Option Bool
  err : String
  verifying : Bool
  nonceRef : String
deriving DecidableEq

/-- `disconnectBeacon`: drop the GATT connection, reset the
`notifyAttached` ref and clear the displayed state fields.  (The source
does not touch `nonceRef.current`.) -/
def disconnectBeacon (s : SessionState) : SessionState :=
  { s with
    conn := false
    notifyAttached := false
    deviceName := ""
    beaconIdHex := ""
    verified := none
    nonceHex := ""
    tsMs := ""
    sigHex := ""
    err := "" }

/-- `be64ToMs` from the frontend: read 8 bytes big-endian (throwing on any
other length).  The conversion `Number(n)` is modelled exactly; the
payloads of the claims stay far below 2^53 where it is exact. -/
def be64ToMs (bytes : List Nat) : Except String Nat :=
  if bytes.length ≠ 8 then Except.error ("ts must be 8 bytes")
  else Except.ok (bytes.foldl (fun n b => n * 256 + b) 0)

/-- The verification request a session submits to `POST /api/verify`. -/
structure VerifyCall where
  beaconIdHex : String
  nonceHex : String
  tsMs : String
  sigHex : String
deriving DecidableEq

/-- `onNotify`: handle one response notification.  Returns the updated
component state together with the request submitted to the Verification
Engine, or `none` when the handler returns without calling `fetch`:
* a payload that is not exactly 72 bytes sets the error and stops;
* a missing or wrongly sized retained nonce sets the error and stops;
* otherwise the retained `nonceRef` value, the decoded timestamp and the
  hex signature are submitted. -/
def onNotify (s : SessionState) (raw : List Nat) :
    SessionState × Option VerifyCall :=
  if raw.length ≠ 72 then
    ({ s with err := "Expected 72B, got " ++ toString raw.length,
              verifying := false }, none)
  else
    match be64ToMs (raw.take 8) with
    | Except.error e => ({ s with err := e, verifying := false }, none)
    | Except.ok ms =>
      let sig := bytesToHex (raw.drop 8)
      let s1 := { s with tsMs := toString ms, sigHex := sig }
      if s.nonceRef = "" ∨ s.nonceRef.length ≠ 32 then
        ({ s1 with
           err := "Nonce not ready (len=" ++ toString s.nonceRef.length ++
                  ") - press Verify again",
           verifying := false }, none)
      else
        ({ s1 with verifying := false },
         some ⟨s.beaconIdHex, s.nonceRef, toString ms, sig⟩)

/-! ## Helper lemmas: characters -/

theorem charEqOfToNat {a b : Char} (h : a.toNat = b.toNat) : a = b :=
  Char.ext (UInt32.ext_iff.mpr h)

theorem toNat_jsToLower (c : Char) :
    (jsToLower c).toNat =
      if 65 ≤ c.toNat ∧ c.toNat ≤ 90 then c.toNat + 32 else c.toNat := by
  unfold jsToLower
  split
  · next h =>
    have hv : (c.toNat + 32).isValidChar := by
      unfold Nat.isValidChar
      exact Or.inl (by omega)
    rw [Char.ofNat, dif_pos hv]
    rfl
  · rfl

theorem jsToLower_eq_self {c : Char} (h : ¬ (65 ≤ c.toNat ∧ c.toNat ≤ 90)) :
    jsToLower c = c := by
  unfold jsToLower
  rw [if_neg h]

theorem isHexChar_iff {c : Char} :
    isHexChar c = true ↔
      (48 ≤ c.toNat ∧ c.toNat ≤ 57) ∨ (97 ≤ c.toNat ∧ c.toNat ≤ 102) ∨
      (65 ≤ c.toNat ∧ c.toNat ≤ 70) := by
  unfold isHexChar hexDigitVal?
  split_ifs with h1 h2 h3 <;> simp <;> omega

theorem isLowerHexChar_iff {c : Char} :
    isLowerHexChar c = true ↔
      (48 ≤ c.toNat ∧ c.toNat ≤ 57) ∨ (97 ≤ c.toNat ∧ c.toNat ≤ 102) := by
  unfold isLowerHexChar
  simp [Bool.or_eq_true, Bool.and_eq_true, decide_eq_true_iff]

theorem isDigitChar_iff {c : Char} :
    isDigitChar c = true ↔ 48 ≤ c.toNat ∧ c.toNat ≤ 57 := by
  unfold isDigitChar
  simp [Bool.and_eq_true, decide_eq_true_iff]

theorem isLowerHexChar_jsToLower {c : Char} (h : isHexChar c = true) :
    isLowerHexChar (jsToLower c) = true := by
  rw [isLowerHexChar_iff, toNat_jsToLower]
  rcases isHexChar_iff.mp h with h1 | h1 | h1
  · rw [if_neg (by omega)]
    omega
  · rw [if_neg (by omega)]
    omega
  · rw [if_pos (by omega)]
    omega

theorem hexDigitVal_lt_16 {c : Char} {v : Nat} (h : hexDigitVal? c = some v) :
    v < 16 := by
  unfold hexDigitVal? at h
  split_ifs at h <;> simp_all <;> omega

theorem toHexDigit_toNat {v : Nat} (h : v < 16) :
    (toHexDigit v).toNat = if v < 10 then 48 + v else 87 + v := by
  interval_cases v <;> rfl

theorem hexDigitVal_toHexDigit {v : Nat} (h : v < 16) :
    hexDigitVal? (toHexDigit v) = some v := by
  interval_cases v <;> rfl

theorem isLowerHexChar_toHexDigit (v : Nat) :
    isLowerHexChar (toHexDigit v) = true := by
  unfold toHexDigit
  split <;> rfl

theorem jsToLower_toHexDigit (v : Nat) :
    jsToLower (toHexDigit v) = toHexDigit v := by
  apply jsToLower_eq_self
  unfold toHexDigit
  split <;> decide

theorem toHexDigit_getD {c : Char} (h : isLowerHexChar c = true) :
    toHexDigit ((hexDigitVal? c).getD 0) = c := by
  apply charEqOfToNat
  rcases isLowerHexChar_iff.mp h with h1 | h1
  · have hv : hexDigitVal? c = some (c.toNat - 48) := by
      unfold hexDigitVal?
      rw [if_pos h1]
    rw [hv, Option.getD_some, toHexDigit_toNat (by omega)]
    split <;> omega
  · have hv : hexDigitVal? c = some (c.toNat - 87) := by
      unfold hexDigitVal?
      rw [if_neg (by omega), if_pos h1]
    rw [hv, Option.getD_some, toHexDigit_toNat (by omega)]
    split <;> omega

/-! ## Helper lemmas: arithmetic -/

theorem modWindow (n k : Nat) (hk : k + 8 ≤ 64) :
    n / 2 ^ k % 256 = n % 2 ^ 64 / 2 ^ k % 256 := by
  conv_lhs => rw [← Nat.div_add_mod n (2 ^ 64)]
  have h64 : (2 : Nat) ^ 64 = 2 ^ k * 2 ^ (64 - k) := by
    rw [← pow_add]
    congr 1
    omega
  have h8 : (2 : Nat) ^ (64 - k) = 256 * 2 ^ (56 - k) := by
    rw [show (256 : Nat) = 2 ^ 8 from rfl, ← pow_add]
    congr 1
    omega
  rw [h64, Nat.mul_assoc, Nat.mul_add_div (Nat.pos_pow_of_pos k (by norm_num)),
    h8, Nat.mul_assoc, Nat.mul_add_mod]

theorem be64_length (n : Nat) : (be64 n).length = 8 := by
  simp [be64]

/-! ## Helper lemmas: hex codec -/

theorem hexPairs_length (l : List Char) : (hexPairs l).length = l.length / 2 := by
  induction l using hexPairs.induct with
  | case1 c1 c2 rest ih =>
    simp only [hexPairs, List.length_cons, ih]
    omega
  | case2 l h =>
    cases l with
    | nil => rfl
    | cons a l =>
      cases l with
      | cons b l => exact absurd rfl (h a b l)
      | nil => simp [hexPairs]

theorem byteToHex_pairVal {c1 c2 : Char} (h1 : isLowerHexChar c1 = true)
    (h2 : isLowerHexChar c2 = true) :
    byteToHex (16 * (hexDigitVal? c1).getD 0 + (hexDigitVal? c2).getD 0) =
      [c1, c2] := by
  have b1 : (hexDigitVal? c1).getD 0 < 16 := by
    rcases isLowerHexChar_iff.mp h1 with h | h <;>
      · unfold hexDigitVal?
        split_ifs <;> simp <;> omega
  have b2 : (hexDigitVal? c2).getD 0 < 16 := by
    rcases isLowerHexChar_iff.mp h2 with h | h <;>
      · unfold hexDigitVal?
        split_ifs <;> simp <;> omega
  unfold byteToHex
  have e1 : (16 * (hexDigitVal? c1).getD 0 + (hexDigitVal? c2).getD 0) / 16 =
      (hexDigitVal? c1).getD 0 := by omega
  have e2 : (16 * (hexDigitVal? c1).getD 0 + (hexDigitVal? c2).getD 0) % 16 =
      (hexDigitVal? c2).getD 0 := by omega
  rw [e1, e2, toHexDigit_getD h1, toHexDigit_getD h2]

theorem hexPairs_byteToHex (bs : List Nat) (h : ∀ x ∈ bs, x < 256) :
    hexPairs ((bs.map byteToHex).flatten) = bs := by
  induction bs with
  | nil => rfl
  | cons x bs ih =>
    have hx : x < 256 := h x (by simp)
    have h1 : x / 16 < 16 := by omega
    have h2 : x % 16 < 16 := by omega
    show hexPairs (toHexDigit (x / 16) :: toHexDigit (x % 16) ::
      (bs.map byteToHex).flatten) = x :: bs
    rw [hexPairs, hexDigitVal_toHexDigit h1, hexDigitVal_toHexDigit h2]
    simp only [Option.getD_some]
    rw [ih (fun y hy => h y (List.mem_cons_of_mem x hy))]
    congr 1
    omega

theorem byteToHex_flatten_chars (bs : List Nat) :
    ((bs.map byteToHex).flatten.all isLowerHexChar) = true ∧
    (bs.map byteToHex).flatten.length % 2 = 0 ∧
    (bs.map byteToHex).flatten.map jsToLower = (bs.map byteToHex).flatten := by
  induction bs with
  | nil => exact ⟨rfl, rfl, rfl⟩
  | cons x bs ih =>
    obtain ⟨ha, hl, hm⟩ := ih
    refine ⟨?_, ?_, ?_⟩
    · show (toHexDigit (x / 16) :: toHexDigit (x % 16) ::
        (bs.map byteToHex).flatten).all isLowerHexChar = true
      simp only [List.all_cons, isLowerHexChar_toHexDigit, Bool.true_and]
      exact ha
    · show (toHexDigit (x / 16) :: toHexDigit (x % 16) ::
        (bs.map byteToHex).flatten).length % 2 = 0
      simp only [List.length_cons]
      omega
    · show (toHexDigit (x / 16) :: toHexDigit (x % 16) ::
        (bs.map byteToHex).flatten).map jsToLower = _
      simp only [List.map_cons, jsToLower_toHexDigit, hm]
      rfl

theorem byteToHex_hexPairs (l : List Char) (hall : l.all isLowerHexChar = true)
    (heven : l.length % 2 = 0) :
    ((hexPairs l).map byteToHex).flatten = l := by
  induction l using hexPairs.induct with
  | case1 c1 c2 rest ih =>
    simp only [List.all_cons, Bool.and_eq_true] at hall
    obtain ⟨h1, h2, hrest⟩ := hall
    rw [hexPairs]
    simp only [List.map_cons, List.flatten_cons]
    rw [byteToHex_pairVal h1 h2,
      ih hrest (by simp only [List.length_cons] at heven; omega)]
    rfl
  | case2 l h =>
    cases l with
    | nil => rfl
    | cons a l =>
      cases l with
      | cons b l => exact absurd rfl (h a b l)
      | nil => simp at heven

theorem hexToBytes_ok_of_hexCI (s : String) (hall : s.data.all isHexChar = true)
    (heven : s.data.length % 2 = 0) :
    hexToBytes s = Except.ok (hexPairs (s.data.map jsToLower)) ∧
    (hexPairs (s.data.map jsToLower)).length = s.data.length / 2 := by
  have hlow : (s.data.map jsToLower).all isLowerHexChar = true := by
    rw [List.all_eq_true] at hall ⊢
    intro c hc
    rw [List.mem_map] at hc
    obtain ⟨c0, hc0, rfl⟩ := hc
    exact isLowerHexChar_jsToLower (hall c0 hc0)
  constructor
  · unfold hexToBytes
    have hcond : ((strToLower s).data.all isLowerHexChar &&
        (strToLower s).length % 2 == 0) = true := by
      have hdata : (strToLower s).data = s.data.map jsToLower := rfl
      have hlen : (strToLower s).length = s.data.length := by
        show (s.data.map jsToLower).length = s.data.length
        simp
      rw [hdata, hlen, hlow]
      simp only [Bool.true_and, beq_iff_eq]
      exact heven
    rw [if_pos hcond]
    rfl
  · rw [hexPairs_length]
    simp

/-! ## Helper lemmas: decimal timestamp strings -/

theorem dropWhile_noop {p : Char → Bool} {l : List Char}
    (h : ∀ c ∈ l, p c = false) : l.dropWhile p = l := by
  cases l with
  | nil => rfl
  | cons a l => simp [List.dropWhile_cons, h a (by simp)]

theorem digit_not_ws {c : Char} (h : isDigitChar c = true) :
    isJsWhitespace c = false := by
  have hr := isDigitChar_iff.mp h
  unfold isJsWhitespace
  simp only [Bool.or_eq_false_iff, decide_eq_false_iff_not]
  omega

theorem trimJs_digits {l : List Char} (h : ∀ c ∈ l, isDigitChar c = true) :
    trimJs l = l := by
  unfold trimJs
  rw [dropWhile_noop (fun c hc => digit_not_ws (h c hc)),
    dropWhile_noop (fun c hc => digit_not_ws (h c (List.mem_reverse.mp hc))),
    List.reverse_reverse]

theorem radixDigitsAcc_digits (l : List Char) (h : ∀ c ∈ l, isDigitChar c = true) :
    ∀ acc, radixDigitsAcc digitVal? 10 acc l =
      some (l.foldl (fun a c => a * 10 + (c.toNat - 48)) acc) := by
  induction l with
  | nil => intro acc; rfl
  | cons c cs ih =>
    intro acc
    have hc := isDigitChar_iff.mp (h c (by simp))
    have hv : digitVal? c = some (c.toNat - 48) := by
      unfold digitVal?
      rw [if_pos hc]
    rw [radixDigitsAcc, hv]
    exact ih (fun x hx => h x (List.mem_cons_of_mem c hx)) (acc * 10 + (c.toNat - 48))

theorem jsBigIntCore_digits (l : List Char) (h : ∀ c ∈ l, isDigitChar c = true) :
    jsBigIntCore l = some ((digitsToNat l : Nat) : Int) := by
  have hdec : (radixDigitsAcc digitVal? 10 0 l).map Int.ofNat =
      some ((digitsToNat l : Nat) : Int) := by
    rw [radixDigitsAcc_digits l h 0]
    rfl
  cases l with
  | nil => rfl
  | cons c cs =>
    have hc := isDigitChar_iff.mp (h c (by simp))
    have hplus : ¬ (c = '+') := by
      intro he
      rw [he] at hc
      exact absurd hc.1 (by decide)
    have hminus : ¬ (c = '-') := by
      intro he
      rw [he] at hc
      exact absurd hc.1 (by decide)
    show (if c = '+' then _ else _) = _
    rw [if_neg hplus, if_neg hminus]
    by_cases h0 : c = '0'
    · rw [if_pos h0]
      cases cs with
      | nil =>
        subst h0
        rfl
      | cons c2 cs2 =>
        have hc2 := isDigitChar_iff.mp (h c2 (by simp))
        have hx : ¬ (c2 = 'x' ∨ c2 = 'X') := by
          rintro (he | he) <;> (rw [he] at hc2; exact absurd hc2.2 (by decide))
        have ho : ¬ (c2 = 'o' ∨ c2 = 'O') := by
          rintro (he | he) <;> (rw [he] at hc2; exact absurd hc2.2 (by decide))
        have hb : ¬ (c2 = 'b' ∨ c2 = 'B') := by
          rintro (he | he) <;> (rw [he] at hc2; exact absurd hc2.2 (by decide))
        show (if c2 = 'x' ∨ c2 = 'X' then _ else _) = _
        rw [if_neg hx, if_neg ho, if_neg hb]
        exact hdec
    · rw [if_neg h0]
      exact hdec

theorem jsBigInt_digits (s : String) (h : s.data.all isDigitChar = true) :
    jsBigInt s = some ((digitsToNat s.data : Nat) : Int) := by
  rw [List.all_eq_true] at h
  unfold jsBigInt
  rw [trimJs_digits h, jsBigIntCore_digits s.data h]

theorem u64StringTo8BE_digits (s : String) (h : s.data.all isDigitChar = true) :
    u64StringTo8BE s = Except.ok (be64 (digitsToNat s.data % 2 ^ 64)) := by
  unfold u64StringTo8BE
  rw [jsBigInt_digits s h]
  show Except.ok ((List.range 8).map fun i =>
    (((digitsToNat s.data : Nat) : Int) / (2 : Int) ^ ((7 - i) * 8) % 256).toNat) =
    Except.ok (be64 (digitsToNat s.data % 2 ^ 64))
  unfold be64
  congr 1
  apply List.map_congr_left
  intro i hi
  have hi8 : i < 8 := by simpa [List.mem_range] using hi
  have hk : (7 - i) * 8 + 8 ≤ 64 := by omega
  rw [← modWindow (digitsToNat s.data) ((7 - i) * 8) hk]
  have h2 : ((2 : Int) ^ ((7 - i) * 8)) = (((2 ^ ((7 - i) * 8) : Nat) : Int)) := by
    push_cast
    rfl
  rw [h2]
  omega

/-! ## Helper lemmas: message building -/

theorem buildMessage_ok (nonceHex tsMs : String)
    (h32 : nonceHex.data.length = 32) (hhex : nonceHex.data.all isHexChar = true)
    (hts : tsMs.data.all isDigitChar = true) :
    buildMessage nonceHex tsMs =
      Except.ok (hexPairs (nonceHex.data.map jsToLower) ++
        be64 (digitsToNat tsMs.data % 2 ^ 64)) ∧
    (hexPairs (nonceHex.data.map jsToLower)).length = 16 := by
  obtain ⟨hok, hlen⟩ := hexToBytes_ok_of_hexCI nonceHex hhex (by omega)
  have hlen16 : (hexPairs (nonceHex.data.map jsToLower)).length = 16 := by
    rw [hlen, h32]
  refine ⟨?_, hlen16⟩
  unfold buildMessage
  rw [hok]
  simp only [hlen16]
  rw [if_neg (by omega), u64StringTo8BE_digits tsMs hts]

theorem buildMessage_fail_of_jsBigInt_none (nonceHex tsMs : String)
    (h : jsBigInt tsMs = none) : (buildMessage nonceHex tsMs).isOk = false := by
  have hu : u64StringTo8BE tsMs =
      Except.error ("SyntaxError: cannot convert string to a BigInt") := by
    unfold u64StringTo8BE
    rw [h]
  unfold buildMessage
  cases hhex : hexToBytes nonceHex with
  | error e => rfl
  | ok nonce =>
    show (if nonce.length ≠ 16 then
        (Except.error ("nonce must be exactly 16 bytes") : Except String (List Nat))
      else
        match u64StringTo8BE tsMs with
        | Except.error e => Except.error e
        | Except.ok ts => Except.ok (nonce ++ ts)).isOk = false
    by_cases hlen : nonce.length ≠ 16
    · rw [if_pos hlen]
      rfl
    · rw [if_neg hlen, hu]
      rfl

/-! ## Helper lemmas: registry loading -/

theorem loadEntries_append_valid (pre rest : List (String × String))
    (h : ∀ e ∈ pre, validEntry e = true) (reg : List (String × String)) :
    loadEntries (pre ++ rest) reg =
      loadEntries rest
        (pre.foldl (fun m e => mapSet m (strToLower e.1) (strToLower e.2)) reg) := by
  induction pre generalizing reg with
  | nil => rfl
  | cons e pre ih =>
    obtain ⟨b, p⟩ := e
    have he : validEntry (b, p) = true := h _ (by simp)
    simp only [validEntry, Bool.and_eq_true] at he
    obtain ⟨hb, hp⟩ := he
    rw [List.cons_append, loadEntries, if_neg (by simp [hb]), if_neg (by simp [hp]),
      List.foldl_cons]
    exact ih (fun x hx => h x (List.mem_cons_of_mem _ hx)) _

theorem loadEntries_bad_head (b p : String) (post : List (String × String))
    (hbad : validEntry (b, p) = false) (reg : List (String × String)) :
    (loadEntries ((b, p) :: post) reg).1 = reg ∧
    (loadEntries ((b, p) :: post) reg).2.isSome = true := by
  rw [loadEntries]
  simp only [validEntry, Bool.and_eq_false_iff] at hbad
  by_cases hb : validBeaconIdHex b = true
  · have hp : ¬ validPublicKeyHex p = true := by
      rcases hbad with h | h
      · rw [hb] at h
        exact absurd h (by simp)
      · simp [h]
    rw [if_neg (by simp [hb]), if_pos hp]
    exact ⟨rfl, rfl⟩
  · rw [if_pos hb]
    exact ⟨rfl, rfl⟩

/-! ## Helper lemmas: the verification endpoint -/

theorem validBody_components {r : VerifyRequest} (h : validBody r = true) :
    r.beaconIdHex.data.length = 16 ∧ r.beaconIdHex.data.all isHexChar = true ∧
    r.nonceHex.data.length = 32 ∧ r.nonceHex.data.all isHexChar = true ∧
    1 ≤ r.tsMs.data.length ∧ r.tsMs.data.all isDigitChar = true ∧
    r.sigHex.data.length = 128 ∧ r.sigHex.data.all isHexChar = true := by
  simp only [validBody, Bool.and_eq_true, beq_iff_eq, decide_eq_true_iff] at h
  obtain ⟨⟨⟨⟨⟨⟨⟨h1, h2⟩, h3⟩, h4⟩, h5⟩, h6⟩, h7⟩, h8⟩ := h
  exact ⟨h1, h2, h3, h4, h5, h6, h7, h8⟩

theorem verifyHandler_eval (ed : List Nat → List Nat → List Nat → Bool)
    (reg : List (String × String)) (r : VerifyRequest) (pubHex : String)
    (hb : validBody r = true)
    (hreg : getPublicKeyHex reg r.beaconIdHex = some pubHex)
    (hplen : pubHex.length = 64) (hphex : pubHex.data.all isHexChar = true) :
    buildMessage r.nonceHex r.tsMs = Except.ok
      (hexPairs (r.nonceHex.data.map jsToLower) ++
        be64 (digitsToNat r.tsMs.data % 2 ^ 64)) ∧
    (hexPairs (r.nonceHex.data.map jsToLower) ++
      be64 (digitsToNat r.tsMs.data % 2 ^ 64)).length = 24 ∧
    hexToBytes r.sigHex = Except.ok (hexPairs (r.sigHex.data.map jsToLower)) ∧
    (hexPairs (r.sigHex.data.map jsToLower)).length = 64 ∧
    hexToBytes pubHex = Except.ok (hexPairs (pubHex.data.map jsToLower)) ∧
    (hexPairs (pubHex.data.map jsToLower)).length = 32 ∧
    verifyHandler ed reg r = VerifyResponse.verdict
      (ed (hexPairs (r.nonceHex.data.map jsToLower) ++
          be64 (digitsToNat r.tsMs.data % 2 ^ 64))
        (hexPairs (r.sigHex.data.map jsToLower))
        (hexPairs (pubHex.data.map jsToLower))) := by
  obtain ⟨h1, h2, h3, h4, h5, h6, h7, h8⟩ := validBody_components hb
  obtain ⟨hmsg, hnlen⟩ := buildMessage_ok r.nonceHex r.tsMs h3 h4 h6
  obtain ⟨hsig, hsiglen⟩ := hexToBytes_ok_of_hexCI r.sigHex h8 (by omega)
  have hplen' : pubHex.data.length = 64 := hplen
  obtain ⟨hpub, hpublen⟩ := hexToBytes_ok_of_hexCI pubHex hphex (by omega)
  refine ⟨hmsg, ?_, hsig, ?_, hpub, ?_, ?_⟩
  · rw [List.length_append, hnlen, be64_length]
  · rw [hsiglen, h7]
  · rw [hpublen, hplen']
  · unfold verifyHandler
    rw [if_neg (by simp [hb])]
    simp only [hreg, hmsg, hsig, hpub]

/-! ## Claim theorems -/

/-- C8: hex codec round-trip: decoding an encoding returns the original byte
sequence, and encoding a decoding returns the lowercase form of the original
hex string (here: every hex string accepted by `hexToBytes`). -/
theorem hex_roundtrip :
    (∀ bs : List Nat, (∀ x ∈ bs, x < 256) →
      hexToBytes (bytesToHex bs) = Except.ok bs) ∧
    (∀ (s : String) (bs : List Nat), hexToBytes s = Except.ok bs →
      bytesToHex bs = strToLower s) := by
  constructor
  · intro bs h
    obtain ⟨ha, hl, hm⟩ := byteToHex_flatten_chars bs
    have hdata : (strToLower (bytesToHex bs)).data = (bs.map byteToHex).flatten := by
      show ((bs.map byteToHex).flatten).map jsToLower = (bs.map byteToHex).flatten
      exact hm
    have hcond : ((strToLower (bytesToHex bs)).data.all isLowerHexChar &&
        (strToLower (bytesToHex bs)).length % 2 == 0) = true := by
      have hlen : (strToLower (bytesToHex bs)).length =
          ((bs.map byteToHex).flatten).length := by
        show (strToLower (bytesToHex bs)).data.length = _
        rw [hdata]
      rw [hdata, hlen, ha]
      simp only [Bool.true_and, beq_iff_eq]
      exact hl
    unfold hexToBytes
    rw [if_pos hcond, hdata, hexPairs_byteToHex bs h]
  · intro s bs h
    unfold hexToBytes at h
    by_cases hc : ((strToLower s).data.all isLowerHexChar &&
        (strToLower s).length % 2 == 0) = true
    · rw [if_pos hc] at h
      injection h with h
      simp only [Bool.and_eq_true, beq_iff_eq] at hc
      obtain ⟨hall, heven⟩ := hc
      have heven' : (strToLower s).data.length % 2 = 0 := heven
      rw [← h]
      unfold bytesToHex
      show String.mk (((hexPairs (strToLower s).data).map byteToHex).flatten) =
        strToLower s
      rw [byteToHex_hexPairs (strToLower s).data hall heven']
    · rw [if_neg hc] at h
      exact absurd h (by simp)

/-- C8 witness: round trip at the byte list `[0, 171, 255]` and the mixed-case
hex string `"Ff00"`. -/
theorem hex_roundtrip_witness :
    hexToBytes (bytesToHex [0, 171, 255]) = Except.ok [0, 171, 255] ∧
    bytesToHex [255, 0] = strToLower ("Ff00") :=
  ⟨hex_roundtrip.1 [0, 171, 255] (by decide),
   hex_roundtrip.2 ("Ff00") [255, 0] (by rfl)⟩

/-- C10: on every decimal digit string, `u64StringTo8BE` succeeds and returns
the 8-byte big-endian encoding of the denoted value reduced mod 2^64; two
digit strings congruent mod 2^64 produce the same bytes. -/
theorem u64StringTo8BE_mod_2_64 :
    ∀ s : String, s.data.all isDigitChar = true →
      u64StringTo8BE s = Except.ok (be64 (digitsToNat s.data % 2 ^ 64)) ∧
      (be64 (digitsToNat s.data % 2 ^ 64)).length = 8 ∧
      ∀ s2 : String, s2.data.all isDigitChar = true →
        digitsToNat s.data % 2 ^ 64 = digitsToNat s2.data % 2 ^ 64 →
        u64StringTo8BE s = u64StringTo8BE s2 := by
  intro s hs
  refine ⟨u64StringTo8BE_digits s hs, be64_length _, ?_⟩
  intro s2 hs2 hcong
  rw [u64StringTo8BE_digits s hs, u64StringTo8BE_digits s2 hs2, hcong]

/-- C10 witness: `"18446744073709551617"` (2^64 + 1) is encoded like `"1"`. -/
theorem u64StringTo8BE_mod_2_64_witness :
    ("18446744073709551617" : String).data.all isDigitChar = true ∧
    u64StringTo8BE ("18446744073709551617") =
      Except.ok (be64 (digitsToNat ("18446744073709551617" : String).data % 2 ^ 64)) ∧
    u64StringTo8BE ("18446744073709551617") = u64StringTo8BE ("1") :=
  ⟨by decide,
   (u64StringTo8BE_mod_2_64 ("18446744073709551617") (by decide)).1,
   (u64StringTo8BE_mod_2_64 ("18446744073709551617") (by decide)).2.2 ("1")
     (by decide) (by decide)⟩

/-- C3 counterexample: the all-digit timestamp `"18446744073709551616"`
denotes exactly 2^64, yet `buildMessage` succeeds instead of failing with an
`InvalidTimestamp` error. -/
theorem overflow_timestamp_not_rejected_cex :
    digitsToNat ("18446744073709551616" : String).data = 2 ^ 64 ∧
    (buildMessage ("00112233445566778899aabbccddeeff")
      ("18446744073709551616")).isOk = true := by
  constructor
  · decide
  · rfl

/-- C3 (amended): a timestamp string rejected by `BigInt` parsing makes
`buildMessage` fail, but a decimal digit string is never rejected for
overflow: the value is silently reduced mod 2^64. -/
theorem timestamp_parse_behavior :
    (∀ nonceHex tsMs : String, jsBigInt tsMs = none →
      (buildMessage nonceHex tsMs).isOk = false) ∧
    (∀ nonceHex tsMs : String,
      nonceHex.data.length = 32 → nonceHex.data.all isHexChar = true →
      tsMs.data.all isDigitChar = true →
      buildMessage nonceHex tsMs =
        Except.ok (hexPairs (nonceHex.data.map jsToLower) ++
          be64 (digitsToNat tsMs.data % 2 ^ 64))) :=
  ⟨buildMessage_fail_of_jsBigInt_none,
   fun n t h32 hhex hts => (buildMessage_ok n t h32 hhex hts).1⟩

/-- C3 (amended) witness: `"12abc"` is unparsable and fails; the overflowing
`"18446744073709551616"` builds a message with timestamp field 0. -/
theorem timestamp_parse_behavior_witness :
    jsBigInt ("12abc") = none ∧
    (buildMessage ("00112233445566778899aabbccddeeff") ("12abc")).isOk = false ∧
    buildMessage ("00112233445566778899aabbccddeeff") ("18446744073709551616") =
      Except.ok (hexPairs
        (("00112233445566778899aabbccddeeff" : String).data.map jsToLower) ++
        be64 (digitsToNat ("18446744073709551616" : String).data % 2 ^ 64)) :=
  ⟨by rfl,
   timestamp_parse_behavior.1 ("00112233445566778899aabbccddeeff") ("12abc") (by rfl),
   timestamp_parse_behavior.2 ("00112233445566778899aabbccddeeff")
     ("18446744073709551616") (by decide) (by decide) (by decide)⟩

/-- C4: when the nonce decodes to 16 bytes and the decimal timestamp is below
2^64, `buildMessage` returns exactly the 24-byte `nonce(16) || ts_be64(8)`
layout. -/
theorem buildMessage_layout :
    ∀ (nonceHex tsMs : String) (nb : List Nat),
      hexToBytes nonceHex = Except.ok nb → nb.length = 16 →
      tsMs.data.all isDigitChar = true → digitsToNat tsMs.data < 2 ^ 64 →
      buildMessage nonceHex tsMs = Except.ok (nb ++ be64 (digitsToNat tsMs.data)) ∧
      (nb ++ be64 (digitsToNat tsMs.data)).length = 24 ∧
      (nb ++ be64 (digitsToNat tsMs.data)).take 16 = nb ∧
      (nb ++ be64 (digitsToNat tsMs.data)).drop 16 = be64 (digitsToNat tsMs.data) := by
  intro nonceHex tsMs nb hnb hlen hts hlt
  have hmod : digitsToNat tsMs.data % 2 ^ 64 = digitsToNat tsMs.data :=
    Nat.mod_eq_of_lt hlt
  refine ⟨?_, ?_, ?_, ?_⟩
  · unfold buildMessage
    rw [hnb]
    show (if nb.length ≠ 16 then
        (Except.error ("nonce must be exactly 16 bytes") : Except String (List Nat))
      else
        match u64StringTo8BE tsMs with
        | Except.error e => Except.error e
        | Except.ok ts => Except.ok (nb ++ ts)) = _
    rw [if_neg (by omega), u64StringTo8BE_digits tsMs hts, hmod]
  · rw [List.length_append, be64_length, hlen]
  · rw [← hlen, List.take_left]
  · rw [← hlen, List.drop_left]

/-- C4 witness: the spec's own example with timestamp `"1700000000000"`. -/
theorem buildMessage_layout_witness :
    hexToBytes ("00112233445566778899aabbccddeeff") =
      Except.ok [0, 17, 34, 51, 68, 85, 102, 119, 136, 153, 170, 187, 204, 221, 238, 255] ∧
    buildMessage ("00112233445566778899aabbccddeeff") ("1700000000000") =
      Except.ok ([0, 17, 34, 51, 68, 85, 102, 119, 136, 153, 170, 187, 204, 221, 238, 255] ++
        be64 (digitsToNat ("1700000000000" : String).data)) ∧
    be64 (digitsToNat ("1700000000000" : String).data) =
      [0, 0, 1, 139, 207, 229, 104, 0] :=
  ⟨by rfl,
   (buildMessage_layout ("00112233445566778899aabbccddeeff") ("1700000000000")
     [0, 17, 34, 51, 68, 85, 102, 119, 136, 153, 170, 187, 204, 221, 238, 255]
     (by rfl) (by rfl) (by decide) (by decide)).1,
   by decide⟩

/-- C9 counterexample: the string `"00112233445566778899aabbccddeeff"` that
the spec calls 33 characters long actually has 32 characters, and
`buildMessage` succeeds on it instead of failing with a length error. -/
theorem nonce32_spec_string_succeeds_cex :
    ("00112233445566778899aabbccddeeff" : String).length = 32 ∧
    buildMessage ("00112233445566778899aabbccddeeff") ("1700000000000") =
      Except.ok [0, 17, 34, 51, 68, 85, 102, 119, 136, 153, 170, 187, 204, 221,
        238, 255, 0, 0, 1, 139, 207, 229, 104, 0] := by
  constructor
  · decide
  · rfl

/-- C9 (amended): the spec's example nonce has 32 hex characters, so
`buildMessage` succeeds on it for every decimal timestamp; appending one more
character gives an odd-length string, which fails with the invalid-hex
error. -/
theorem buildMessage_nonce_length_check :
    (∀ tsMs : String, tsMs.data.all isDigitChar = true →
      (buildMessage ("00112233445566778899aabbccddeeff") tsMs).isOk = true) ∧
    (∀ tsMs : String,
      buildMessage ("00112233445566778899aabbccddeeff0") tsMs =
        Except.error ("invalid hex")) := by
  constructor
  · intro tsMs hts
    rw [(buildMessage_ok ("00112233445566778899aabbccddeeff") tsMs
      (by decide) (by decide) hts).1]
    rfl
  · intro tsMs
    unfold buildMessage
    rw [show hexToBytes ("00112233445566778899aabbccddeeff0") =
      Except.error ("invalid hex") from rfl]

/-- C9 (amended) witness: instantiated at timestamp `"1700000000000"`. -/
theorem buildMessage_nonce_length_check_witness :
    (buildMessage ("00112233445566778899aabbccddeeff") ("1700000000000")).isOk = true ∧
    buildMessage ("00112233445566778899aabbccddeeff0") ("1700000000000") =
      Except.error ("invalid hex") :=
  ⟨buildMessage_nonce_length_check.1 ("1700000000000") (by decide),
   buildMessage_nonce_length_check.2 ("1700000000000")⟩

/-- C1: for every request passing input validation whose beacon id resolves
to a registered (well-formed) public key, the endpoint answers the verdict of
the Ed25519 primitive on the canonical 24-byte message, the 64-byte
signature and the registered key: `ok = true` iff the signature verifies. -/
theorem verify_accept_iff_signature_valid :
    ∀ (ed : List Nat → List Nat → List Nat → Bool)
      (reg : List (String × String)) (r : VerifyRequest) (pubHex : String),
      validBody r = true →
      getPublicKeyHex reg r.beaconIdHex = some pubHex →
      pubHex.length = 64 → pubHex.data.all isHexChar = true →
      ∃ msg sig pub,
        buildMessage r.nonceHex r.tsMs = Except.ok msg ∧ msg.length = 24 ∧
        hexToBytes r.sigHex = Except.ok sig ∧ sig.length = 64 ∧
        hexToBytes pubHex = Except.ok pub ∧ pub.length = 32 ∧
        verifyHandler ed reg r = VerifyResponse.verdict (ed msg sig pub) ∧
        (verifyHandler ed reg r = VerifyResponse.verdict true ↔
          ed msg sig pub = true) := by
  intro ed reg r pubHex hb hreg hplen hphex
  obtain ⟨hmsg, hmlen, hsig, hslen, hpub, hpulen, hhandler⟩ :=
    verifyHandler_eval ed reg r pubHex hb hreg hplen hphex
  refine ⟨_, _, _, hmsg, hmlen, hsig, hslen, hpub, hpulen, hhandler, ?_⟩
  rw [hhandler]
  simp

/-- C1 witness: a valid request against a one-entry registry, with the
Ed25519 primitive instantiated to accept. -/
theorem verify_accept_iff_signature_valid_witness :
    validBody ⟨("a1b2c3d4e5f60708"), ("00112233445566778899aabbccddeeff"),
      ("1700000000000"), (String.mk (List.replicate 128 ('0')))⟩ = true ∧
    getPublicKeyHex
      [(("a1b2c3d4e5f60708"), (String.mk (List.replicate 64 ('a'))))]
      ("a1b2c3d4e5f60708") = some (String.mk (List.replicate 64 ('a'))) ∧
    ∃ msg sig pub,
      buildMessage ("00112233445566778899aabbccddeeff") ("1700000000000") =
        Except.ok msg ∧ msg.length = 24 ∧
      hexToBytes (String.mk (List.replicate 128 ('0'))) = Except.ok sig ∧
        sig.length = 64 ∧
      hexToBytes (String.mk (List.replicate 64 ('a'))) = Except.ok pub ∧
        pub.length = 32 ∧
      verifyHandler (fun _ _ _ => true)
        [(("a1b2c3d4e5f60708"), (String.mk (List.replicate 64 ('a'))))]
        ⟨("a1b2c3d4e5f60708"), ("00112233445566778899aabbccddeeff"),
          ("1700000000000"), (String.mk (List.replicate 128 ('0')))⟩ =
        VerifyResponse.verdict ((fun (_ _ _ : List Nat) => true) msg sig pub) ∧
      (verifyHandler (fun _ _ _ => true)
        [(("a1b2c3d4e5f60708"), (String.mk (List.replicate 64 ('a'))))]
        ⟨("a1b2c3d4e5f60708"), ("00112233445566778899aabbccddeeff"),
          ("1700000000000"), (String.mk (List.replicate 128 ('0')))⟩ =
        VerifyResponse.verdict true ↔
        (fun (_ _ _ : List Nat) => true) msg sig pub = true) :=
  ⟨by decide, by rfl,
   verify_accept_iff_signature_valid (fun _ _ _ => true)
     [(("a1b2c3d4e5f60708"), (String.mk (List.replicate 64 ('a'))))]
     ⟨("a1b2c3d4e5f60708"), ("00112233445566778899aabbccddeeff"),
       ("1700000000000"), (String.mk (List.replicate 128 ('0')))⟩
     (String.mk (List.replicate 64 ('a')))
     (by decide) (by rfl) (by decide) (by decide)⟩

/-- C5 counterexample: a well-formed request for a registered beacon whose
signature fails verification is answered with the bare `{ ok: false }`
verdict — a rejection carrying no machine-readable reason code. -/
theorem invalid_signature_reason_code_cex :
    isRejection (verifyHandler (fun _ _ _ => false)
      [(("a1b2c3d4e5f60708"), (String.mk (List.replicate 64 ('a'))))]
      ⟨("a1b2c3d4e5f60708"), ("00112233445566778899aabbccddeeff"),
        ("1700000000000"), (String.mk (List.replicate 128 ('0')))⟩) = true ∧
    carriesReasonCode (verifyHandler (fun _ _ _ => false)
      [(("a1b2c3d4e5f60708"), (String.mk (List.replicate 64 ('a'))))]
      ⟨("a1b2c3d4e5f60708"), ("00112233445566778899aabbccddeeff"),
        ("1700000000000"), (String.mk (List.replicate 128 ('0')))⟩) = false := by
  exact ⟨by rfl, by rfl⟩

/-- C5 (amended): malformed input is rejected by schema validation before any
cryptographic work (HTTP 400 framework response, no reason-code body);
an unknown beacon is rejected with the reason code `unknown_beacon`; an
invalid signature yields the HTTP-200 verdict `{ ok: false }` without a
reason code. -/
theorem verify_rejection_statuses :
    ∀ (ed : List Nat → List Nat → List Nat → Bool)
      (reg : List (String × String)) (r : VerifyRequest),
      (validBody r = false →
        verifyHandler ed reg r = VerifyResponse.validationError ∧
        carriesReasonCode (verifyHandler ed reg r) = false) ∧
      (validBody r = true → getPublicKeyHex reg r.beaconIdHex = none →
        verifyHandler ed reg r = VerifyResponse.rejected ("unknown_beacon") ∧
        carriesReasonCode (verifyHandler ed reg r) = true) ∧
      (∀ pubHex : String, validBody r = true →
        getPublicKeyHex reg r.beaconIdHex = some pubHex →
        pubHex.length = 64 → pubHex.data.all isHexChar = true →
        ∃ msg sig pub,
          verifyHandler ed reg r = VerifyResponse.verdict (ed msg sig pub) ∧
          isRejection (verifyHandler ed reg r) = !(ed msg sig pub) ∧
          carriesReasonCode (verifyHandler ed reg r) = false) := by
  intro ed reg r
  refine ⟨?_, ?_, ?_⟩
  · intro hfalse
    have h : verifyHandler ed reg r = VerifyResponse.validationError := by
      unfold verifyHandler
      rw [if_pos (by simp [hfalse])]
    exact ⟨h, by rw [h]; rfl⟩
  · intro hb hnone
    have h : verifyHandler ed reg r = VerifyResponse.rejected ("unknown_beacon") := by
      unfold verifyHandler
      rw [if_neg (by simp [hb])]
      simp only [hnone]
    exact ⟨h, by rw [h]; rfl⟩
  · intro pubHex hb hreg hplen hphex
    obtain ⟨_, _, _, _, _, _, hhandler⟩ :=
      verifyHandler_eval ed reg r pubHex hb hreg hplen hphex
    exact ⟨_, _, _, hhandler, by rw [hhandler]; rfl, by rw [hhandler]; rfl⟩

/-- C5 (amended) witness: the three branches at concrete requests — a
malformed body, an unknown beacon, and a rejected signature. -/
theorem verify_rejection_statuses_witness :
    (verifyHandler (fun _ _ _ => false) []
        ⟨("zz"), (""), (""), ("")⟩ = VerifyResponse.validationError) ∧
    (verifyHandler (fun _ _ _ => false) []
        ⟨("a1b2c3d4e5f60708"), ("00112233445566778899aabbccddeeff"),
          ("1700000000000"), (String.mk (List.replicate 128 ('0')))⟩ =
      VerifyResponse.rejected ("unknown_beacon")) ∧
    ∃ msg sig pub,
      verifyHandler (fun _ _ _ => false)
        [(("a1b2c3d4e5f60708"), (String.mk (List.replicate 64 ('a'))))]
        ⟨("a1b2c3d4e5f60708"), ("00112233445566778899aabbccddeeff"),
          ("1700000000000"), (String.mk (List.replicate 128 ('0')))⟩ =
        VerifyResponse.verdict ((fun (_ _ _ : List Nat) => false) msg sig pub) ∧
      isRejection (verifyHandler (fun _ _ _ => false)
        [(("a1b2c3d4e5f60708"), (String.mk (List.replicate 64 ('a'))))]
        ⟨("a1b2c3d4e5f60708"), ("00112233445566778899aabbccddeeff"),
          ("1700000000000"), (String.mk (List.replicate 128 ('0')))⟩) =
        !((fun (_ _ _ : List Nat) => false) msg sig pub) ∧
      carriesReasonCode (verifyHandler (fun _ _ _ => false)
        [(("a1b2c3d4e5f60708"), (String.mk (List.replicate 64 ('a'))))]
        ⟨("a1b2c3d4e5f60708"), ("00112233445566778899aabbccddeeff"),
          ("1700000000000"), (String.mk (List.replicate 128 ('0')))⟩) = false :=
  ⟨((verify_rejection_statuses (fun _ _ _ => false) []
      ⟨("zz"), (""), (""), ("")⟩).1 (by decide)).1,
   ((verify_rejection_statuses (fun _ _ _ => false) []
      ⟨("a1b2c3d4e5f60708"), ("00112233445566778899aabbccddeeff"),
        ("1700000000000"), (String.mk (List.replicate 128 ('0')))⟩).2.1
      (by decide) (by rfl)).1,
   (verify_rejection_statuses (fun _ _ _ => false)
      [(("a1b2c3d4e5f60708"), (String.mk (List.replicate 64 ('a'))))]
      ⟨("a1b2c3d4e5f60708"), ("00112233445566778899aabbccddeeff"),
        ("1700000000000"), (String.mk (List.replicate 128 ('0')))⟩).2.2
     (String.mk (List.replicate 64 ('a')))
     (by decide) (by rfl) (by decide) (by decide)⟩

/-- C2 counterexample: a source whose second entry is malformed makes
`loadBeaconRegistry` fail, yet the registry visible to lookups has changed:
the previous content is gone and the valid first entry is loaded and
resolvable. -/
theorem loadRegistry_not_atomic_cex :
    (loadBeaconRegistry
      [(("0011223344556677"), (String.mk (List.replicate 64 ('a'))))]
      (RegistrySource.present
        [(("8899aabbccddeeff"), (String.mk (List.replicate 64 ('a')))),
         (("zz"), (String.mk (List.replicate 64 ('a'))))])).2.isSome = true ∧
    (loadBeaconRegistry
      [(("0011223344556677"), (String.mk (List.replicate 64 ('a'))))]
      (RegistrySource.present
        [(("8899aabbccddeeff"), (String.mk (List.replicate 64 ('a')))),
         (("zz"), (String.mk (List.replicate 64 ('a'))))])).1 ≠
      [(("0011223344556677"), (String.mk (List.replicate 64 ('a'))))] ∧
    getPublicKeyHex (loadBeaconRegistry
      [(("0011223344556677"), (String.mk (List.replicate 64 ('a'))))]
      (RegistrySource.present
        [(("8899aabbccddeeff"), (String.mk (List.replicate 64 ('a')))),
         (("zz"), (String.mk (List.replicate 64 ('a'))))])).1
      ("8899aabbccddeeff") = some (String.mk (List.replicate 64 ('a'))) := by
  exact ⟨by rfl, by decide, by rfl⟩

/-- C2 (amended): a malformed entry still aborts the load with an error, but
the load is not atomic: the registry is cleared first and the valid entries
preceding the malformed one are inserted, so a failed load leaves this
partial registry visible to lookups instead of the previous one. -/
theorem loadRegistry_partial_on_failure :
    ∀ (initial pre post : List (String × String)) (b p : String),
      (∀ e ∈ pre, validEntry e = true) → validEntry (b, p) = false →
      (loadBeaconRegistry initial
        (RegistrySource.present (pre ++ (b, p) :: post))).2.isSome = true ∧
      (loadBeaconRegistry initial
        (RegistrySource.present (pre ++ (b, p) :: post))).1 =
        pre.foldl (fun m e => mapSet m (strToLower e.1) (strToLower e.2)) [] := by
  intro initial pre post b p hpre hbad
  show (loadEntries (pre ++ (b, p) :: post) []).2.isSome = true ∧
    (loadEntries (pre ++ (b, p) :: post) []).1 =
      pre.foldl (fun m e => mapSet m (strToLower e.1) (strToLower e.2)) []
  rw [loadEntries_append_valid pre ((b, p) :: post) hpre []]
  obtain ⟨h1, h2⟩ := loadEntries_bad_head b p post hbad
    (pre.foldl (fun m e => mapSet m (strToLower e.1) (strToLower e.2)) [])
  exact ⟨h2, h1⟩

/-- C2 (amended) witness: one valid entry followed by a malformed id; the
failed load leaves exactly the valid entry. -/
theorem loadRegistry_partial_on_failure_witness :
    (loadBeaconRegistry []
      (RegistrySource.present
        ([(("a1b2c3d4e5f60708"), (String.mk (List.replicate 64 ('a'))))] ++
          (("zz"), ("00")) :: []))).2.isSome = true ∧
    (loadBeaconRegistry []
      (RegistrySource.present
        ([(("a1b2c3d4e5f60708"), (String.mk (List.replicate 64 ('a'))))] ++
          (("zz"), ("00")) :: []))).1 =
      [(("a1b2c3d4e5f60708"), (String.mk (List.replicate 64 ('a'))))] := by
  have h := loadRegistry_partial_on_failure []
    [(("a1b2c3d4e5f60708"), (String.mk (List.replicate 64 ('a'))))] []
    ("zz") ("00") (by decide) (by decide)
  refine ⟨h.1, ?_⟩
  rw [h.2]
  rfl

/-- C6 counterexample: after an explicit disconnect the `nonceRef` slot that
`onNotify` reads still holds the issued nonce — it is not discarded. -/
theorem disconnect_retains_nonceRef_cex :
    (disconnectBeacon
      ⟨true, true, ("Beacon"), ("a1b2c3d4e5f60708"),
        ("00112233445566778899aabbccddeeff"), (""), (""), none, (""), false,
        ("00112233445566778899aabbccddeeff")⟩).nonceRef =
      ("00112233445566778899aabbccddeeff") ∧
    ("00112233445566778899aabbccddeeff" : String) ≠ ("") := by
  exact ⟨rfl, by decide⟩

/-- C6 (amended): the explicit disconnect drops the connection, resets the
subscription flag and clears the displayed fields (including the displayed
nonce), but the `nonceRef` slot used by notification handling keeps its
value. -/
theorem disconnect_state_effects :
    ∀ s : SessionState,
      (disconnectBeacon s).conn = false ∧
      (disconnectBeacon s).notifyAttached = false ∧
      (disconnectBeacon s).nonceHex = ("") ∧
      (disconnectBeacon s).tsMs = ("") ∧
      (disconnectBeacon s).sigHex = ("") ∧
      (disconnectBeacon s).verified = none ∧
      (disconnectBeacon s).err = ("") ∧
      (disconnectBeacon s).deviceName = ("") ∧
      (disconnectBeacon s).beaconIdHex = ("") ∧
      (disconnectBeacon s).nonceRef = s.nonceRef := by
  intro s
  exact ⟨rfl, rfl, rfl, rfl, rfl, rfl, rfl, rfl, rfl, rfl⟩

/-- C7: a notification payload that is not exactly 72 bytes makes the session
set the malformed-response error and return without submitting any request
to the Verification Engine. -/
theorem short_notification_no_verify_call :
    ∀ (s : SessionState) (raw : List Nat), raw.length ≠ 72 →
      (onNotify s raw).2 = none ∧
      (onNotify s raw).1.err = ("Expected 72B, got " ++ toString raw.length) ∧
      (onNotify s raw).1.verifying = false := by
  intro s raw h
  unfold onNotify
  rw [if_pos h]
  exact ⟨rfl, rfl, rfl⟩

/-- C7 witness: a 70-byte payload is dropped with the length error. -/
theorem short_notification_no_verify_call_witness :
    (List.replicate 70 0 : List Nat).length ≠ 72 ∧
    (onNotify
      ⟨true, true, ("Beacon"), ("a1b2c3d4e5f60708"),
        ("00112233445566778899aabbccddeeff"), (""), (""), none, (""), true,
        ("00112233445566778899aabbccddeeff")⟩
      (List.replicate 70 0)).2 = none ∧
    (onNotify
      ⟨true, true, ("Beacon"), ("a1b2c3d4e5f60708"),
        ("00112233445566778899aabbccddeeff"), (""), (""), none, (""), true,
        ("00112233445566778899aabbccddeeff")⟩
      (List.replicate 70 0)).1.err = ("Expected 72B, got 70") := by
  have h := short_notification_no_verify_call
    ⟨true, true, ("Beacon"), ("a1b2c3d4e5f60708"),
      ("00112233445566778899aabbccddeeff"), (""), (""), none, (""), true,
      ("00112233445566778899aabbccddeeff")⟩
    (List.replicate 70 0) (by decide)
  refine ⟨by decide, h.1, ?_⟩
  rw [h.2.1]
  rfl

end SpaceScrypt
